import Mathlib

/-!
A shallow embedding of the chunked/resumable HTTP download engine and the
content-handle pool of the file-box repository (`src/misc.ts` and its
configuration/tests).  Pure data flow and control flow of the source are
translated into executable Lean definitions; network responses, disk
contents and timers are represented by explicit scripts and state.
-/

namespace FileBox

/-! ## Bytes and the skip transform (`createSkipTransform`, misc.ts:208-230)

The transform keeps a running count `skipped`; for each incoming chunk it
drops the whole chunk while `skipped < skipBytes`, drops a prefix of the
chunk that crosses the boundary, and passes every later chunk through. -/

/-- One `transform(chunk, _, callback)` invocation of `createSkipTransform`
(misc.ts:211-228): given the bytes still to skip and the current `skipped`
counter, returns the new counter and the emitted output for this chunk. -/
def skipTransformStep (skipBytes skipped : Nat) (chunk : List Nat) : Nat × List Nat :=
  if skipped < skipBytes then
    let remaining := skipBytes - skipped
    if chunk.length ≤ remaining then
      (skipped + chunk.length, [])
    else
      (skipBytes, chunk.drop remaining)
  else
    (skipped, chunk)

/-- Feeding a whole sequence of chunks through `createSkipTransform`,
starting from counter `skipped`, concatenating the emitted outputs. -/
def runSkipTransformFrom (skipBytes : Nat) : Nat → List (List Nat) → List Nat
  | _, [] => []
  | skipped, c :: cs =>
    let r := skipTransformStep skipBytes skipped c
    r.2 ++ runSkipTransformFrom skipBytes r.1 cs

/-- The stream built by `createSkipTransform(skipBytes)` applied to a chunk
sequence: counter starts at 0 (misc.ts:209). -/
def runSkipTransform (skipBytes : Nat) (chunks : List (List Nat)) : List Nat :=
  runSkipTransformFrom skipBytes 0 chunks

/-! ## Content-Range parsing (`parseContentRange`, misc.ts:442-452)

The regex `bytes (\d+)-(\d+)/(\d+)` either fails (header absent or
unparsable) or yields three natural numbers. -/

/-- The `content-range` header of a response, as consumed by
`downloadFileInChunks`: absent, present but unparsable, or parsed into
`start-end/total`. -/
inductive CRField where
  | missing : CRField
  | invalid : CRField
  | valid (s e t : Nat) : CRField
deriving DecidableEq

/-- One HTTP response as observed by `downloadFileInChunks`:
status code, `Number(headers['content-length']) || 0`, the
content-range field, and the body bytes delivered by the stream. -/
structure Resp where
  status : Nat
  contentLength : Int
  cr : CRField
  body : List Nat
deriving DecidableEq

/-- The outcome of one `fetch` inside the download loop: a response, or a
transport-level error (the fetch call rejected). -/
inductive Attempt where
  | resp (r : Resp) : Attempt
  | err : Attempt
deriving DecidableEq

/-! ## Session state of `downloadFileInChunks` (misc.ts:232-425) -/

/-- The mutable state of one download session: `expectedTotal`, `start`,
`downSize`, `retries`, `useRange`, `useChunked` (misc.ts:251-258), the
scratch file (its byte contents and whether it currently exists on disk),
and whether the host key has been added to `unsupportedRangeDomains`. -/
structure DlState where
  expectedTotal : Option Int
  start : Int
  downSize : Int
  retries : Nat
  useRange : Bool
  useChunked : Bool
  disk : List Nat
  tmpExists : Bool
  hostRecorded : Bool
deriving DecidableEq

/-- Errors with which `downloadFileInChunks` can reject. -/
inductive AttErr where
  | transport : AttErr
  | badStatus (code : Nat) : AttErr
  | negLength : AttErr
  | sizeMismatch (expected got : Int) : AttErr
  | gap (requested actual : Int) : AttErr
deriving DecidableEq

/-- Terminal errors of the download session: fallback attempted while
already in whole-file mode (misc.ts:384-387), retry budget exhausted
(misc.ts:404-408), or the post-loop finalize of the write stream aborted
(misc.ts:414-417). -/
inductive DlErr where
  | noFallbackLeft : DlErr
  | exhausted (cause : AttErr) : DlErr
  | finalizeAborted : DlErr
deriving DecidableEq

/-- Result of processing one loop iteration: continue the do-while loop,
break out of it (status 200 completed the transfer, misc.ts:368), or
reject; a rejection carries the state at the throw so that scratch-file
cleanup is observable. -/
inductive StepRes where
  | next (st : DlState) : StepRes
  | done (st : DlState) : StepRes
  | failed (e : DlErr) (st : DlState) : StepRes
deriving DecidableEq

/-- The re-measure step at the top of each loop iteration
(misc.ts:261-268): `stat` the scratch file (0 if it cannot be read) and,
whenever the measured size differs from the tracked `downSize`, adopt it
as both `downSize` and `start`. -/
def measureResume (fileStats downSize start : Int) : Int × Int :=
  if fileStats ≠ downSize then (fileStats, fileStats) else (downSize, start)

/-- Apply `measureResume` to the session state; the measured size is the
actual scratch-file size (0 when the file does not exist, matching
`.catch(() => 0)`). -/
def applyMeasure (st : DlState) : DlState :=
  let fileStats : Int := if st.tmpExists then st.disk.length else 0
  let r := measureResume fileStats st.downSize st.start
  { st with downSize := r.1, start := r.2 }

/-- The `Range` header of the request issued this iteration
(misc.ts:274-280): `bytes=<start>-` when `useRange`, otherwise none. -/
def rangeHeaderOf (st : DlState) : Option Int :=
  if st.useRange then some st.start else none

/-- The catch-branch for ordinary (non-fallback) errors (misc.ts:402-410):
decrement the retry budget; when it reaches zero destroy the stream,
remove the scratch file and reject, otherwise back off and continue. -/
def retryOrFail (st : DlState) (e : AttErr) : StepRes :=
  let r := st.retries - 1
  if r = 0 then
    .failed (.exhausted e) { st with retries := r, disk := [], tmpExists := false }
  else
    .next { st with retries := r }

/-- The catch-branch for `FallbackError` (misc.ts:375-399): record the host
in `unsupportedRangeDomains`, destroy the stream and remove the scratch
file; if already in non-range mode reject permanently, otherwise recreate
the scratch file and reset the whole session to whole-file mode. -/
def applyFallback (st : DlState) : StepRes :=
  let st1 := { st with hostRecorded := true, disk := ([] : List Nat), tmpExists := false }
  if st1.useRange then
    .next { st1 with tmpExists := true, expectedTotal := none, downSize := 0, start := 0,
                     useChunked := false, useRange := false, retries := 3 }
  else
    .failed .noFallbackLeft st1

/-- The range-verification part of the 206 branch (misc.ts:326-351),
after the `expectedTotal` bookkeeping: mark `useChunked`, compare the
returned start with the requested one, and either reject with a gap
error, append the body with the overlap sliced off, or append the body
as-is; on success advance `downSize`/`start` and reset the budget. -/
def handle206Range (st : DlState) (s e : Nat) (body : List Nat) : StepRes :=
  let st1 := { st with useChunked := true }
  if (s : Int) ≠ st1.start then
    if (s : Int) > st1.start then
      retryOrFail st1 (.gap st1.start s)
    else
      let skipBytes : Int := st1.start - (s : Int)
      let newDown : Int := st1.downSize + ((e : Int) - (s : Int) + 1 - skipBytes)
      .next { st1 with disk := st1.disk ++ body.drop skipBytes.toNat,
                       downSize := newDown, start := newDown, retries := 3 }
  else
    let newDown : Int := st1.downSize + ((e : Int) - st1.start + 1)
    .next { st1 with disk := st1.disk ++ body,
                     downSize := newDown, start := newDown, retries := 3 }

/-- The 206 branch after a successful `parseContentRange`
(misc.ts:316-324): the first observed total seeds `expectedTotal`
(misc.ts:316-320), a later differing total throws the size-mismatch error
(misc.ts:321-324), then the range verification runs. -/
def handle206 (st : DlState) (s e t : Nat) (body : List Nat) : StepRes :=
  match st.expectedTotal with
  | none => handle206Range { st with expectedTotal := some (t : Int) } s e body
  | some et =>
    if (t : Int) ≠ et then retryOrFail st (.sizeMismatch et t)
    else handle206Range st s e body

/-- The 200 branch (misc.ts:352-368): when bytes were already accumulated
under range mode, discard the scratch file and restart from zero; then
treat the response as the whole file, set `expectedTotal := contentLength`,
append the body, set `downSize := contentLength` and break. -/
def handle200 (st : DlState) (cl : Int) (body : List Nat) : StepRes :=
  let st1 :=
    if st.useChunked || st.start > 0 then
      { st with disk := ([] : List Nat), start := 0, downSize := 0, tmpExists := true }
    else st
  .done { st1 with expectedTotal := some cl, disk := st1.disk ++ body, downSize := cl }

/-- One iteration body of the do-while loop (misc.ts:282-411), applied to
the state after `measureResume`: dispatch on the attempt outcome and the
response status exactly as the try/catch of the source does. -/
def stepAttempt (st : DlState) (a : Attempt) : StepRes :=
  match a with
  | .err => retryOrFail st .transport
  | .resp r =>
    if r.status = 416 then applyFallback st
    else if ¬(r.status = 200 ∨ r.status = 206) then retryOrFail st (.badStatus r.status)
    else if r.contentLength < 0 then retryOrFail st .negLength
    else if r.status = 206 then
      match r.cr with
      | .missing => applyFallback st
      | .invalid => applyFallback st
      | .valid s e t => handle206 st s e t r.body
    else
      handle200 st r.contentLength r.body

/-- The do-while guard `expectedTotal === null || downSize < expectedTotal`
(misc.ts:412). -/
def loopCond (st : DlState) : Bool :=
  match st.expectedTotal with
  | none => true
  | some t => st.downSize < t

/-- Final result of `downloadFileInChunks`: the finished scratch contents
handed back as a read stream, a rejection (with the state at the throw),
or a run that ran out of scripted responses. -/
inductive DlResult where
  | ok (content : List Nat) : DlResult
  | err (e : DlErr) (st : DlState) : DlResult
  | stuck : DlResult
deriving DecidableEq

/-- A run together with the trace of issued requests; each entry is the
`Range` start of one GET (`none` for a plain request). -/
structure RunOut where
  trace : List (Option Int)
  result : DlResult
deriving DecidableEq

/-- The post-loop finalize (misc.ts:414-424): flush and close the write
stream — when the write side aborted, `once(writeStream, 'finish',
{ signal })` rejects and the error propagates with the scratch file left
in place; otherwise the scratch contents are handed back. -/
def finishRun (st : DlState) (finalizeErr : Bool) : DlResult :=
  if finalizeErr then .err .finalizeAborted st else .ok st.disk

/-- The do-while loop of `downloadFileInChunks`, driven by a script of
attempt outcomes (one scripted outcome per issued request). -/
def runDlAux (st : DlState) : List Attempt → Bool → RunOut
  | [], _ => ⟨[], .stuck⟩
  | a :: rest, finalizeErr =>
    let st0 := applyMeasure st
    let req := rangeHeaderOf st0
    match stepAttempt st0 a with
    | .next st1 =>
      if loopCond st1 then
        let r := runDlAux st1 rest finalizeErr
        ⟨req :: r.trace, r.result⟩
      else ⟨[req], finishRun st1 finalizeErr⟩
    | .done st1 => ⟨[req], finishRun st1 finalizeErr⟩
    | .failed e st1 => ⟨[req], .err e st1⟩

/-- Initial session state (misc.ts:238-258): fresh scratch file, zero
progress, budget 3, `useRange` initialised from the negative host cache. -/
def initState (negCache : List String) (hostKey : String) : DlState :=
  { expectedTotal := none, start := 0, downSize := 0, retries := 3,
    useRange := ¬ negCache.contains hostKey, useChunked := false,
    disk := [], tmpExists := true, hostRecorded := negCache.contains hostKey }

/-- The `hostname:port` key built by `httpStream` (misc.ts:116-118), with
the port defaulting to 443/80 by protocol. -/
def hostKeyOf (hostname port : String) (protoHttps : Bool) : String :=
  hostname ++ ":" ++ (if port = "" then (if protoHttps then "443" else "80") else port)

/-- `httpStream` (misc.ts:103-127): after the header probe it
unconditionally delegates to `downloadFileInChunks` — the probe's
accept-ranges and content-length and the no-slice override are not
consulted (misc.ts:120-125). -/
def httpStreamRun (negCache : List String) (hostKey : String)
    (script : List Attempt) (finalizeErr : Bool) : RunOut :=
  runDlAux (initState negCache hostKey) script finalizeErr

/-- The strategy predicate as the specification states it (§4.3 step 3):
range-segmented transfer only if the probe reported range support, a known
non-zero size, no no-slice override, and the host is not negative-cached. -/
def specAttemptsRange (supportsRange : Bool) (sizeHint : Int) (noSlice : Bool)
    (negCache : List String) (hostKey : String) : Bool :=
  supportsRange && sizeHint > 0 && !noSlice && !(negCache.contains hostKey)

/-! ## The header probe (`httpHeadHeader`, misc.ts:55-84)

The probe loops with `REDIRECT_TTL = 7`, checking `REDIRECT_TTL-- <= 0` at
the top of every iteration, issuing one HEAD request per iteration; on a
3xx it requires a Location header and resolves it against the current
address with `new URL(location, url)`. -/

/-- An address, structurally: scheme flag, authority and path.  URL
resolution is needed only for the shapes the probe meets. -/
structure Url where
  https : Bool
  host : String
  path : String
deriving DecidableEq

/-- Modelled from the spec: the WHATWG resolution `new URL(location, url)`
performed at misc.ts:82 (the URL class is platform code, not part of this
repository), restricted to absolute references and path-absolute
references. -/
inductive Loc where
  | absolute (u : Url) : Loc
  | pathAbs (p : String) : Loc
deriving DecidableEq

/-- Resolve a Location value against the current address: an absolute
reference replaces the address, a path-absolute reference keeps the
origin and replaces the path. -/
def resolveRef (l : Loc) (base : Url) : Url :=
  match l with
  | .absolute u => u
  | .pathAbs p => { base with path := p }

/-- One HEAD response as the probe inspects it: a 3xx with an optional
Location header, or a terminal (non-3xx) response. -/
inductive HeadResp where
  | redirect3xx (loc : Option Loc) : HeadResp
  | terminal : HeadResp
deriving DecidableEq

/-- Outcome of the probe: the terminal address (with the flag telling
whether `headers.location` was overwritten because the address changed,
misc.ts:70-74), the TTL-expired rejection (misc.ts:60-62), the
missing-Location rejection (misc.ts:77-79), or script exhaustion. -/
inductive HeadOut where
  | ok (finalUrl : Url) (locChanged : Bool) : HeadOut
  | ttlExpired : HeadOut
  | noLocation : HeadOut
  | stuck : HeadOut
deriving DecidableEq

/-- The `while (true)` loop of `httpHeadHeader`: `ttl` is the value of
`REDIRECT_TTL` on entering the iteration; the guard rejects when it is
already 0 (the source's `REDIRECT_TTL-- <= 0` on the pre-decrement
value). -/
def headLoop (origin : Url) : Nat → Url → List HeadResp → HeadOut
  | 0, _, _ => .ttlExpired
  | _ + 1, _, [] => .stuck
  | _ + 1, url, .terminal :: _ => .ok url (decide (origin ≠ url))
  | _ + 1, _, .redirect3xx none :: _ => .noLocation
  | ttl + 1, url, .redirect3xx (some l) :: rest => headLoop origin ttl (resolveRef l url) rest

/-- `httpHeadHeader(url, ...)` (misc.ts:55-84): run the redirect loop from
the original address with `REDIRECT_TTL = 7`. -/
def httpHeadHeaderRun (origin : Url) (script : List HeadResp) : HeadOut :=
  headLoop origin 7 origin script

/-- A script made of `locs.length` redirects followed by a tail. -/
def redirectScript (locs : List Loc) (tail : List HeadResp) : List HeadResp :=
  locs.map (fun l => HeadResp.redirect3xx (some l)) ++ tail

/-! ## The content-handle pool

The pool implementation (`FileBox.fromUrl` and its map) is not under
`src/`; only its tests are (tests/network-timeout.spec.ts:148-187,
tests/pool.spec.ts).  It is therefore modelled from the spec (§3, §4.4):
an insertion-ordered map from address key to handle, bounded by a
capacity, evicting the oldest entry when a distinct key is inserted over
capacity.  Handles are identified by creation order (`nextId`). -/

/-- Modelled from the spec: pool state — insertion-ordered entries
`(address key, handle id)` plus the id of the next handle to create. -/
structure PoolSt where
  entries : List (Nat × Nat)
  nextId : Nat
deriving DecidableEq

/-- Look an address up in the pool without modifying it. -/
def poolLookup (p : PoolSt) (k : Nat) : Option Nat :=
  (p.entries.find? (fun e => e.1 == k)).map (fun e => e.2)

/-- Evict the oldest-inserted entry when the pool exceeds its capacity. -/
def poolEvict (cap : Nat) (l : List (Nat × Nat)) : List (Nat × Nat) :=
  if cap < l.length then l.drop 1 else l

/-- Construct a fresh handle for a missing key, insert it at the newest
end, and evict the oldest entry beyond capacity. -/
def poolInsertFresh (cap : Nat) (p : PoolSt) (k : Nat) : Nat × PoolSt :=
  (p.nextId, { entries := poolEvict cap (p.entries ++ [(k, p.nextId)]), nextId := p.nextId + 1 })

/-- Modelled from the spec (§4.4, "a lookup hit does not reorder the
entry"): non-unique `get` with pure-FIFO eviction — a hit returns the
stored handle and leaves the order untouched. -/
def fifoGet (cap : Nat) (p : PoolSt) (k : Nat) : Nat × PoolSt :=
  match poolLookup p k with
  | some i => (i, p)
  | none => poolInsertFresh cap p k

/-- Modelled from the spec's pool interface with the access-refresh
behavior the repository's own test requires
(tests/network-timeout.spec.ts:168-186): a hit returns the stored handle
and moves its entry to the newest end, so eviction removes the
least-recently-used entry. -/
def lruGet (cap : Nat) (p : PoolSt) (k : Nat) : Nat × PoolSt :=
  match poolLookup p k with
  | some i => (i, { p with entries := p.entries.filter (fun e => !(e.1 == k)) ++ [(k, i)] })
  | none => poolInsertFresh cap p k

/-- Insert the `n` distinct keys `k, k+1, ..., k+n-1` in order, collecting
the returned handle ids (the fill loop of the repository's pool test). -/
def fillFrom (get : Nat → PoolSt → Nat → Nat × PoolSt) (cap : Nat) :
    Nat → Nat → PoolSt → List Nat × PoolSt
  | _, 0, p => ([], p)
  | k, n + 1, p =>
    let r := get cap p k
    let rec0 := fillFrom get cap (k + 1) n r.2
    (r.1 :: rec0.1, rec0.2)

/-- The scenario of the repository's test "pool should remove old filebox
instance" (tests/network-timeout.spec.ts:168-186): fill keys `0..cap-1`
into an empty pool, look key 0 up again, insert a fresh key, look key 1 up
again; returns the two booleans the test asserts (the key-0 lookup
returned the original handle; the key-1 lookup returned a different
handle). -/
def poolTestScenario (get : Nat → PoolSt → Nat → Nat × PoolSt) (cap newKey : Nat) : Bool × Bool :=
  let fill := fillFrom get cap 0 cap ⟨[], 0⟩
  let ids := fill.1
  let g0 := get cap fill.2 0
  let gNew := get cap g0.2 newKey
  let g1 := get cap gNew.2 1
  (decide (some g0.1 = ids.get? 0), decide (some g1.1 ≠ ids.get? 1))

/-! ## Observers on run results -/

/-- Whether a run rejected from the post-loop finalize. -/
def isFinalizeErr (o : RunOut) : Bool :=
  match o.result with
  | .err .finalizeAborted _ => true
  | _ => false

/-- Whether a rejected run left the scratch file on disk (`false` when the
run did not reject). -/
def scratchLeaked (o : RunOut) : Bool :=
  match o.result with
  | .err _ st => st.tmpExists
  | _ => false

/-- The session state carried by a step outcome (the state at the throw,
for rejections). -/
def stepState : StepRes → DlState
  | .next st => st
  | .done st => st
  | .failed _ st => st

/-- Scratch-file bookkeeping invariant of one loop iteration: a
continuing or breaking iteration keeps the scratch file on disk, and an
in-loop rejection has removed it and is never the finalize error. -/
def stepCleansUp : StepRes → Prop
  | .next st => st.tmpExists = true
  | .done st => st.tmpExists = true
  | .failed e st => st.tmpExists = false ∧ e ≠ .finalizeAborted

/-! # Shared lemmas -/

theorem runSkipTransformFrom_eq (skipBytes : Nat) :
    ∀ (chunks : List (List Nat)) (skipped : Nat), skipped ≤ skipBytes →
      runSkipTransformFrom skipBytes skipped chunks = chunks.flatten.drop (skipBytes - skipped) := by
  intro chunks
  induction chunks with
  | nil => intro skipped _; simp [runSkipTransformFrom]
  | cons c cs ih =>
    intro skipped h
    by_cases h1 : skipped < skipBytes
    · by_cases h2 : c.length ≤ skipBytes - skipped
      · rw [runSkipTransformFrom]
        simp only [skipTransformStep, if_pos h1, if_pos h2]
        rw [ih (skipped + c.length) (by omega)]
        simp only [List.flatten_cons, List.drop_append_eq_append_drop, List.nil_append]
        rw [List.drop_eq_nil_of_le h2, List.nil_append]
        congr 1
        omega
      · rw [runSkipTransformFrom]
        simp only [skipTransformStep, if_pos h1, if_neg h2]
        rw [ih skipBytes (Nat.le_refl _)]
        have h3 : skipBytes - skipped - c.length = 0 := by omega
        simp [List.flatten_cons, List.drop_append_eq_append_drop, h3]
    · have hEq : skipped = skipBytes := by omega
      subst hEq
      rw [runSkipTransformFrom]
      simp only [skipTransformStep, if_neg h1]
      rw [ih skipped (Nat.le_refl _)]
      simp [List.flatten_cons]

theorem runDlAux_trace_head (st : DlState) (a : Attempt) (rest : List Attempt) (fErr : Bool) :
    (runDlAux st (a :: rest) fErr).trace.head? = some (rangeHeaderOf (applyMeasure st)) := by
  rw [runDlAux]
  cases stepAttempt (applyMeasure st) a with
  | next st1 =>
    by_cases h : loopCond st1 = true <;> simp [h]
  | done st1 => simp
  | failed e st1 => simp

/-! # Claims -/

/-- C10: for every skip count `s` and every chunk sequence, the skip
transform emits exactly the concatenation of the inputs with its first
`min(s, total length)` bytes removed, and the output depends only on that
concatenation, not on the chunking. -/
theorem c10_skip_transform (s : Nat) (chunks chunks' : List (List Nat)) :
    runSkipTransform s chunks = chunks.flatten.drop s ∧
    (chunks.flatten = chunks'.flatten → runSkipTransform s chunks = runSkipTransform s chunks') := by
  have base : ∀ cs : List (List Nat), runSkipTransform s cs = cs.flatten.drop s := by
    intro cs
    rw [runSkipTransform, runSkipTransformFrom_eq s cs 0 (Nat.zero_le _), Nat.sub_zero]
  exact ⟨base chunks, fun h => by rw [base chunks, base chunks', h]⟩

/-- Witness for C10 at a concrete chunking: skipping 3 bytes of
`[1,2]+[3,4]+[5]` yields `[4,5]`, the same as for the rechunked input. -/
theorem c10_skip_transform_witness :
    runSkipTransform 3 [[1,2],[3,4],[5]] = runSkipTransform 3 [[1,2,3],[4,5]] ∧
    runSkipTransform 3 [[1,2],[3,4],[5]] = [4,5] :=
  ⟨(c10_skip_transform 3 [[1,2],[3,4],[5]] [[1,2,3],[4,5]]).2 (by decide),
   ((c10_skip_transform 3 [[1,2],[3,4],[5]] [[1,2,3],[4,5]]).1).trans (by decide)⟩

/-- C7, corrected: the re-measure step before each attempt adopts the
on-disk size as both the tracked count and the resume offset whenever it
differs from the tracked count — larger or smaller — and leaves both
unchanged only when the measurement is equal; the next request's Range
offset is the post-measure state's. -/
theorem c7_measure_resume :
    (∀ fileStats downSize start : Int, fileStats ≠ downSize →
      measureResume fileStats downSize start = (fileStats, fileStats)) ∧
    (∀ fileStats downSize start : Int, fileStats = downSize →
      measureResume fileStats downSize start = (downSize, start)) ∧
    (∀ (st : DlState) (a : Attempt) (rest : List Attempt) (fErr : Bool),
      (runDlAux st (a :: rest) fErr).trace.head? = some (rangeHeaderOf (applyMeasure st))) := by
  refine ⟨?_, ?_, runDlAux_trace_head⟩
  · intro fs ds s h; simp [measureResume, h]
  · intro fs ds s h; simp [measureResume, h]

/-- Witness for C7 at concrete measurements: a differing (smaller)
measurement 7 replaces tracked count 9, and an equal measurement keeps
the tracked pair. -/
theorem c7_measure_resume_witness :
    measureResume 7 9 9 = (7, 7) ∧ measureResume 5 5 5 = (5, 5) :=
  ⟨c7_measure_resume.1 7 9 9 (by decide), c7_measure_resume.2.1 5 5 5 rfl⟩

/-- Counterexample for C7 as stated: the claim says a measurement that is
not larger than the tracked count leaves the tracked count as the resume
point, but the source adopts any differing measurement — at on-disk size 4
against tracked count 10 the resume pair becomes (4, 4), not (10, 10). -/
theorem c7_measure_resume_cex :
    (4 : Int) < 10 ∧ measureResume 4 10 10 = (4, 4) ∧ measureResume 4 10 10 ≠ (10, 10) := by
  decide

/-- C1, amended: for every fetch, range-segmented transfer is attempted if
and only if the host:port key is absent from the process-wide negative
cache — `httpStream` delegates to the chunked downloader without
consulting the probe's accept-ranges, its size, or the no-slice override,
and the first request carries `Range: bytes=0-` exactly when the key is
not cached. -/
theorem c1_first_request_range (negCache : List String) (hostKey : String)
    (a : Attempt) (rest : List Attempt) (fErr : Bool) :
    (httpStreamRun negCache hostKey (a :: rest) fErr).trace.head? =
      some (if negCache.contains hostKey then none else some (0 : Int)) := by
  rw [httpStreamRun, runDlAux_trace_head]
  by_cases h : negCache.contains hostKey = true <;>
    simp [initState, applyMeasure, measureResume, rangeHeaderOf, h]

/-- Witness for C1 at a concrete cached and a concrete uncached host: the
first request of the cached host is plain, the uncached one is ranged. -/
theorem c1_first_request_range_witness :
    (httpStreamRun ["h:80"] "h:80" [.err] false).trace.head? = some none ∧
    (httpStreamRun [] "h:80" [.err] false).trace.head? = some (some 0) :=
  ⟨(c1_first_request_range ["h:80"] "h:80" .err [] false).trans (by decide),
   (c1_first_request_range [] "h:80" .err [] false).trans (by decide)⟩

/-- Counterexample for C1 as stated: with a probe reporting no range
support, an unknown size and the no-slice override set, the spec predicate
forbids range transfer, yet the engine's first request still carries
`Range: bytes=0-` (the host is not negative-cached, which is the only
condition the code consults). -/
theorem c1_strategy_cex :
    specAttemptsRange false 0 true [] "h:80" = false ∧
    (httpStreamRun [] "h:80" [.resp ⟨200, 2, .missing, [1, 2]⟩] false).trace = [some 0] ∧
    (httpStreamRun [] "h:80" [.resp ⟨200, 2, .missing, [1, 2]⟩] false).result = .ok [1, 2] := by
  decide

/-- C3, amended: a response status other than 200, 206 and 416 is a
retriable failure — it decrements the per-session retry budget and the
loop continues (issuing further requests) while the budget lasts; only
when the budget reaches zero does the fetch fail, wrapping the
status-code error, and it never triggers strategy fallback. -/
theorem c3_other_status_retried (st : DlState) (r : Resp)
    (h200 : r.status ≠ 200) (h206 : r.status ≠ 206) (h416 : r.status ≠ 416) :
    (2 ≤ st.retries →
      stepAttempt st (.resp r) = .next { st with retries := st.retries - 1 }) ∧
    (st.retries = 1 →
      stepAttempt st (.resp r) =
        .failed (.exhausted (.badStatus r.status))
          { st with retries := 0, disk := [], tmpExists := false }) := by
  have hstep : stepAttempt st (.resp r) = retryOrFail st (.badStatus r.status) := by
    simp [stepAttempt, h200, h206, h416]
  constructor
  · intro h2
    rw [hstep, retryOrFail]
    have hne : ¬(st.retries - 1 = 0) := by omega
    simp [hne]
  · intro h1
    rw [hstep, retryOrFail]
    simp [h1]

/-- Witness for C3: a 404 on the first attempt (budget 3) leaves the loop
running with budget 2, and a 404 with budget 1 rejects with the
status-code cause and the scratch file removed. -/
theorem c3_other_status_retried_witness :
    stepAttempt (initState [] "k") (.resp ⟨404, 0, .missing, []⟩) =
      .next { initState [] "k" with retries := 2 } ∧
    stepAttempt { initState [] "k" with retries := 1 } (.resp ⟨404, 0, .missing, []⟩) =
      .failed (.exhausted (.badStatus 404))
        { initState [] "k" with retries := 0, disk := [], tmpExists := false } :=
  ⟨((c3_other_status_retried (initState [] "k") ⟨404, 0, .missing, []⟩
      (by decide) (by decide) (by decide)).1 (by decide)).trans (by decide),
   ((c3_other_status_retried { initState [] "k" with retries := 1 } ⟨404, 0, .missing, []⟩
      (by decide) (by decide) (by decide)).2 (by decide)).trans (by decide)⟩

/-- Counterexample for C3 as stated: a 404 on the first attempt is claimed
to fail the fetch without another request, yet the session issues a second
request and even completes successfully. -/
theorem c3_other_status_cex :
    (httpStreamRun [] "k"
      [.resp ⟨404, 0, .missing, []⟩, .resp ⟨200, 5, .missing, [9, 9, 9, 9, 9]⟩] false) =
      ⟨[some 0, some 0], .ok [9, 9, 9, 9, 9]⟩ := by
  decide

/-- C4, amended: the total declared by the first observed 206 seeds the
session's expected total; every later 206 whose declared total differs —
with no exception for smaller values (the probe-reported size does not
flow into the session) — raises a size-mismatch error that consumes the
retry budget like a transport error, leaving the expectation unchanged
rather than tightening it, and fails the fetch only on exhaustion. -/
theorem c4_total_seeding (st : DlState) (r : Resp) (s e t : Nat) (et : Int)
    (hst : r.status = 206) (hcr : r.cr = .valid s e t) (hcl : 0 ≤ r.contentLength) :
    (st.expectedTotal = none →
      (stepState (stepAttempt st (.resp r))).expectedTotal = some (t : Int)) ∧
    (st.expectedTotal = some et → (t : Int) ≠ et →
      (2 ≤ st.retries →
        stepAttempt st (.resp r) = .next { st with retries := st.retries - 1 }) ∧
      (st.retries = 1 →
        stepAttempt st (.resp r) =
          .failed (.exhausted (.sizeMismatch et t))
            { st with retries := 0, disk := [], tmpExists := false })) := by
  have hstep : stepAttempt st (.resp r) = handle206 st s e t r.body := by
    simp [stepAttempt, hst, hcr, not_lt.mpr hcl]
  constructor
  · intro hnone
    rw [hstep]
    simp only [handle206, hnone]
    rw [handle206Range]
    split
    · split
      · rw [retryOrFail]
        split <;> simp [stepState]
      · simp [stepState]
    · simp [stepState]
  · intro hsome hne
    have hmis : stepAttempt st (.resp r) = retryOrFail st (.sizeMismatch et t) := by
      rw [hstep]
      simp [handle206, hsome, hne]
    constructor
    · intro h2
      rw [hmis, retryOrFail]
      have hne0 : ¬(st.retries - 1 = 0) := by omega
      simp [hne0]
    · intro h1
      rw [hmis, retryOrFail]
      simp [h1]

/-- Witness for C4: a first 206 declaring total 10 seeds the expectation,
and a later 206 declaring total 8 against expectation 10 (a smaller value)
is rejected with the budget decremented, expectation intact. -/
theorem c4_total_seeding_witness :
    (stepState (stepAttempt (initState [] "k")
      (.resp ⟨206, 5, .valid 0 4 10, [1, 2, 3, 4, 5]⟩))).expectedTotal = some 10 ∧
    stepAttempt ⟨some 10, 5, 5, 3, true, true, [1, 2, 3, 4, 5], true, false⟩
      (.resp ⟨206, 5, .valid 5 9 8, [6, 7, 8, 9, 10]⟩) =
      .next ⟨some 10, 5, 5, 2, true, true, [1, 2, 3, 4, 5], true, false⟩ :=
  ⟨(c4_total_seeding (initState [] "k") ⟨206, 5, .valid 0 4 10, [1, 2, 3, 4, 5]⟩
      0 4 10 0 rfl rfl (by decide)).1 rfl,
   (((c4_total_seeding ⟨some 10, 5, 5, 3, true, true, [1, 2, 3, 4, 5], true, false⟩
      ⟨206, 5, .valid 5 9 8, [6, 7, 8, 9, 10]⟩ 5 9 8 10 rfl rfl (by decide)).2
      rfl (by decide)).1 (by decide)).trans (by decide)⟩

/-- Counterexample for C4 as stated: after the expectation is seeded at
10, a later 206 declaring the smaller total 8 is claimed to be accepted
and to tighten the expectation; instead the engine rejects that attempt
(re-requesting the same offset 5 a third time with the expectation still
10) and the fetch completes with all 10 bytes. -/
theorem c4_total_seeding_cex :
    (httpStreamRun [] "k"
      [.resp ⟨206, 5, .valid 0 4 10, [1, 2, 3, 4, 5]⟩,
       .resp ⟨206, 5, .valid 5 9 8, [6, 7, 8, 9, 10]⟩,
       .resp ⟨206, 5, .valid 5 9 10, [6, 7, 8, 9, 10]⟩] false) =
      ⟨[some 0, some 5, some 5], .ok [1, 2, 3, 4, 5, 6, 7, 8, 9, 10]⟩ := by
  decide

/-- C5, confirmed: a 416, or a 206 whose Content-Range is missing or
unparsable, records the host key in the negative range cache and discards
the scratch contents; in range mode the session restarts from offset zero
in whole-file strategy with a fresh scratch file, and in whole-file mode
it fails permanently (scratch removed) instead of restarting. -/
theorem c5_fallback_restart (st : DlState) (r : Resp)
    (h : r.status = 416 ∨
      (r.status = 206 ∧ 0 ≤ r.contentLength ∧ (r.cr = .missing ∨ r.cr = .invalid))) :
    stepAttempt st (.resp r) = applyFallback st ∧
    (st.useRange = true → applyFallback st =
      .next { expectedTotal := none, start := 0, downSize := 0, retries := 3,
              useRange := false, useChunked := false, disk := [], tmpExists := true,
              hostRecorded := true }) ∧
    (st.useRange = false → applyFallback st =
      .failed .noFallbackLeft
        { st with hostRecorded := true, disk := [], tmpExists := false }) := by
  refine ⟨?_, ?_, ?_⟩
  · rcases h with h416 | ⟨h206, hcl, hcr⟩
    · simp [stepAttempt, h416]
    · rcases hcr with hmiss | hinv
      · simp [stepAttempt, h206, hmiss, not_lt.mpr hcl]
      · simp [stepAttempt, h206, hinv, not_lt.mpr hcl]
  · intro hur
    simp [applyFallback, hur]
  · intro hur
    simp [applyFallback, hur]

/-- Witness for C5: a 416 in range mode resets the session to whole-file
from offset zero with the host recorded, and a 206 without Content-Range
in whole-file mode fails permanently with the scratch removed. -/
theorem c5_fallback_restart_witness :
    stepAttempt (initState [] "k") (.resp ⟨416, 0, .missing, []⟩) =
      .next ⟨none, 0, 0, 3, false, false, [], true, true⟩ ∧
    stepAttempt (initState ["k"] "k") (.resp ⟨206, 3, .missing, [1, 2, 3]⟩) =
      .failed .noFallbackLeft ⟨none, 0, 0, 3, false, false, [], false, true⟩ :=
  ⟨((c5_fallback_restart (initState [] "k") ⟨416, 0, .missing, []⟩
      (Or.inl rfl)).1).trans
      (((c5_fallback_restart (initState [] "k") ⟨416, 0, .missing, []⟩
        (Or.inl rfl)).2.1 (by decide)).trans (by decide)),
   ((c5_fallback_restart (initState ["k"] "k") ⟨206, 3, .missing, [1, 2, 3]⟩
      (Or.inr ⟨rfl, by decide, Or.inl rfl⟩)).1).trans
      (((c5_fallback_restart (initState ["k"] "k") ⟨206, 3, .missing, [1, 2, 3]⟩
        (Or.inr ⟨rfl, by decide, Or.inl rfl⟩)).2.2 (by decide)).trans (by decide))⟩

/-- C6, amended: on a 206 whose Content-Range start is earlier than the
requested resume offset, exactly the overlapping prefix (requested start
minus returned start bytes) is discarded before appending and the resume
offset advances by the consumed span (returned end + 1 minus requested
start); a start later than requested raises a gap integrity error with
nothing appended, which consumes the retry budget like a transport error
(failing the fetch only on exhaustion) rather than failing it at once. -/
theorem c6_start_mismatch (st : DlState) (r : Resp) (s e t : Nat)
    (hst : r.status = 206) (hcr : r.cr = .valid s e t) (hcl : 0 ≤ r.contentLength)
    (het : st.expectedTotal = some (t : Int)) :
    ((s : Int) < st.start →
      stepAttempt st (.resp r) =
        .next { st with useChunked := true,
                        disk := st.disk ++ r.body.drop (st.start - (s : Int)).toNat,
                        downSize := st.downSize + ((e : Int) + 1 - st.start),
                        start := st.downSize + ((e : Int) + 1 - st.start),
                        retries := 3 }) ∧
    ((s : Int) > st.start →
      (2 ≤ st.retries →
        stepAttempt st (.resp r) =
          .next { st with useChunked := true, retries := st.retries - 1 }) ∧
      (st.retries = 1 →
        stepAttempt st (.resp r) =
          .failed (.exhausted (.gap st.start s))
            { st with useChunked := true, retries := 0, disk := [],
                      tmpExists := false })) := by
  have hstep : stepAttempt st (.resp r) = handle206Range st s e r.body := by
    simp [stepAttempt, hst, hcr, not_lt.mpr hcl, handle206, het]
  constructor
  · intro hlt
    rw [hstep]
    simp only [handle206Range]
    split
    · split
      · exact absurd (by assumption) (by omega)
      · have harith : st.downSize + ((e : Int) - (s : Int) + 1 - (st.start - (s : Int))) =
            st.downSize + ((e : Int) + 1 - st.start) := by ring
        rw [harith]
    · exact absurd (by omega) (by assumption)
  · intro hgt
    have hne : ¬((s : Int) = st.start) := by omega
    have hgap : stepAttempt st (.resp r) =
        retryOrFail { st with useChunked := true } (.gap st.start s) := by
      rw [hstep, handle206Range]
      simp [hne, hgt]
    constructor
    · intro h2
      rw [hgap, retryOrFail]
      have hne0 : ¬(st.retries - 1 = 0) := by omega
      simp [hne0]
    · intro h1
      rw [hgap, retryOrFail]
      simp [h1]

/-- Witness for C6: a 206 answering request offset 5 with start 3 drops
exactly 2 overlap bytes and advances the offset to 10; one answering with
start 7 (a gap) is rejected with the budget decremented and nothing
appended. -/
theorem c6_start_mismatch_witness :
    stepAttempt ⟨some 10, 5, 5, 3, true, true, [1, 2, 3, 4, 5], true, false⟩
      (.resp ⟨206, 7, .valid 3 9 10, [4, 5, 6, 7, 8, 9, 10]⟩) =
      .next ⟨some 10, 10, 10, 3, true, true, [1, 2, 3, 4, 5, 6, 7, 8, 9, 10], true, false⟩ ∧
    stepAttempt ⟨some 10, 5, 5, 3, true, true, [1, 2, 3, 4, 5], true, false⟩
      (.resp ⟨206, 3, .valid 7 9 10, [8, 9, 10]⟩) =
      .next ⟨some 10, 5, 5, 2, true, true, [1, 2, 3, 4, 5], true, false⟩ :=
  ⟨((c6_start_mismatch ⟨some 10, 5, 5, 3, true, true, [1, 2, 3, 4, 5], true, false⟩
      ⟨206, 7, .valid 3 9 10, [4, 5, 6, 7, 8, 9, 10]⟩ 3 9 10 rfl rfl (by decide)
      rfl).1 (by decide)).trans (by decide),
   (((c6_start_mismatch ⟨some 10, 5, 5, 3, true, true, [1, 2, 3, 4, 5], true, false⟩
      ⟨206, 3, .valid 7 9 10, [8, 9, 10]⟩ 7 9 10 rfl rfl (by decide)
      rfl).2 (by decide)).1 (by decide)).trans (by decide)⟩

theorem retryOrFail_cleansUp (st : DlState) (er : AttErr) (h : st.tmpExists = true) :
    stepCleansUp (retryOrFail st er) := by
  rw [retryOrFail]
  split <;> simp [stepCleansUp, h]

theorem applyFallback_cleansUp (st : DlState) : stepCleansUp (applyFallback st) := by
  rw [applyFallback]
  split <;> simp [stepCleansUp]

theorem handle206Range_cleansUp (st : DlState) (s e : Nat) (body : List Nat)
    (h : st.tmpExists = true) : stepCleansUp (handle206Range st s e body) := by
  simp only [handle206Range]
  split
  · split
    · exact retryOrFail_cleansUp _ _ (by simp [h])
    · simp [stepCleansUp, h]
  · simp [stepCleansUp, h]

theorem handle206_cleansUp (st : DlState) (s e t : Nat) (body : List Nat)
    (h : st.tmpExists = true) : stepCleansUp (handle206 st s e t body) := by
  rw [handle206]
  split
  · exact handle206Range_cleansUp _ _ _ _ (by simp [h])
  · split
    · exact retryOrFail_cleansUp _ _ h
    · exact handle206Range_cleansUp _ _ _ _ h

theorem handle200_cleansUp (st : DlState) (cl : Int) (body : List Nat)
    (h : st.tmpExists = true) : stepCleansUp (handle200 st cl body) := by
  simp only [handle200]
  split <;> simp [stepCleansUp, h]

theorem stepAttempt_cleansUp (st : DlState) (a : Attempt) (h : st.tmpExists = true) :
    stepCleansUp (stepAttempt st a) := by
  cases a with
  | err => exact retryOrFail_cleansUp _ _ h
  | resp r =>
    simp only [stepAttempt]
    split
    · exact applyFallback_cleansUp _
    · split
      · exact retryOrFail_cleansUp _ _ h
      · split
        · exact retryOrFail_cleansUp _ _ h
        · split
          · split
            · exact applyFallback_cleansUp _
            · exact applyFallback_cleansUp _
            · exact handle206_cleansUp _ _ _ _ _ h
          · exact handle200_cleansUp _ _ _ h

theorem applyMeasure_tmpExists (st : DlState) : (applyMeasure st).tmpExists = st.tmpExists := by
  rfl

/-- C9, amended: every terminal error raised inside the download loop
(retry-budget exhaustion and the permanent-fallback failure) deletes the
scratch file before propagating; but an error raised at the post-loop
finalize of the write stream propagates with the scratch file still on
disk. -/
theorem c9_scratch_cleanup (script : List Attempt) :
    ∀ (st : DlState) (fErr : Bool), st.tmpExists = true →
    ∀ (e : DlErr) (stE : DlState), (runDlAux st script fErr).result = .err e stE →
      (e = .finalizeAborted → stE.tmpExists = true) ∧
      (e ≠ .finalizeAborted → stE.tmpExists = false) := by
  have finish_case : ∀ (st1 : DlState) (fErr : Bool), st1.tmpExists = true →
      ∀ (e : DlErr) (stE : DlState), finishRun st1 fErr = .err e stE →
        (e = .finalizeAborted → stE.tmpExists = true) ∧
        (e ≠ .finalizeAborted → stE.tmpExists = false) := by
    intro st1 fErr h1 e stE heq
    rw [finishRun] at heq
    by_cases hf : fErr = true
    · rw [if_pos hf] at heq
      injection heq with he hst
      subst he
      subst hst
      exact ⟨fun _ => h1, fun hne => absurd rfl hne⟩
    · rw [if_neg hf] at heq
      exact DlResult.noConfusion heq
  induction script with
  | nil =>
    intro st fErr _ e stE heq
    exact DlResult.noConfusion (heq : DlResult.stuck = .err e stE)
  | cons a rest ih =>
    intro st fErr h e stE heq
    rw [runDlAux] at heq
    have hstep := stepAttempt_cleansUp (applyMeasure st) a
      ((applyMeasure_tmpExists st).trans h)
    cases hs : stepAttempt (applyMeasure st) a with
    | next st1 =>
      rw [hs] at heq hstep
      dsimp only at heq
      by_cases hl : loopCond st1 = true
      · rw [if_pos hl] at heq
        exact ih st1 fErr hstep e stE heq
      · rw [if_neg hl] at heq
        exact finish_case st1 fErr hstep e stE heq
    | done st1 =>
      rw [hs] at heq hstep
      exact finish_case st1 fErr hstep e stE heq
    | failed e1 st1 =>
      rw [hs] at heq hstep
      have heq2 : DlResult.err e1 st1 = .err e stE := heq
      injection heq2 with he hst
      subst he
      subst hst
      exact ⟨fun hfin => absurd hfin hstep.2, fun _ => hstep.1⟩

/-- Witness for C9: three transport errors exhaust the budget and the run
rejects with the scratch file deleted. -/
theorem c9_scratch_cleanup_witness :
    (httpStreamRun [] "k" [.err, .err, .err] false).result =
      .err (.exhausted .transport) ⟨none, 0, 0, 0, true, false, [], false, false⟩ ∧
    (⟨none, 0, 0, 0, true, false, [], false, false⟩ : DlState).tmpExists = false :=
  ⟨by decide,
   (c9_scratch_cleanup [.err, .err, .err] (initState [] "k") false (by decide)
      (.exhausted .transport) ⟨none, 0, 0, 0, true, false, [], false, false⟩
      (by decide)).2 (by decide)⟩

/-- Counterexample for C9 as stated: a fetch whose download loop completed
but whose write-stream finalize aborts is a terminal error path that
propagates with the scratch file still on disk — a leaked temporary
file. -/
theorem c9_scratch_cleanup_cex :
    isFinalizeErr (httpStreamRun [] "k" [.resp ⟨200, 3, .missing, [7, 7, 7]⟩] true) = true ∧
    scratchLeaked (httpStreamRun [] "k" [.resp ⟨200, 3, .missing, [7, 7, 7]⟩] true) = true := by
  decide

/-- Counterexample for C6 as stated: a 206 whose start 7 exceeds the
requested offset 5 is claimed to fail the fetch with a fatal integrity
error, yet the session retries the same offset and completes successfully
with all 10 bytes. -/
theorem c6_start_mismatch_cex :
    (httpStreamRun [] "k"
      [.resp ⟨206, 5, .valid 0 4 10, [1, 2, 3, 4, 5]⟩,
       .resp ⟨206, 3, .valid 7 9 10, [8, 9, 10]⟩,
       .resp ⟨206, 5, .valid 5 9 10, [6, 7, 8, 9, 10]⟩] false) =
      ⟨[some 0, some 5, some 5], .ok [1, 2, 3, 4, 5, 6, 7, 8, 9, 10]⟩ := by
  decide

theorem headLoop_redirects (origin : Url) :
    ∀ (locs : List Loc) (ttl : Nat) (u : Url) (tail : List HeadResp),
      locs.length < ttl →
      headLoop origin ttl u (redirectScript locs tail) =
        headLoop origin (ttl - locs.length) (locs.foldl (fun v l => resolveRef l v) u) tail := by
  intro locs
  induction locs with
  | nil =>
    intro ttl u tail _
    simp [redirectScript]
  | cons l ls ih =>
    intro ttl u tail hlen
    match ttl, hlen with
    | k + 1, hlen =>
      rw [show redirectScript (l :: ls) tail =
        HeadResp.redirect3xx (some l) :: redirectScript ls tail from rfl]
      rw [headLoop]
      rw [ih k (resolveRef l u) tail (by simpa using hlen)]
      have hlen2 : k + 1 - (l :: ls).length = k - ls.length := by
        simp [List.length_cons]
      rw [List.foldl_cons, hlen2]

theorem headLoop_expired (origin : Url) :
    ∀ (locs : List Loc) (ttl : Nat) (u : Url) (tail : List HeadResp),
      ttl ≤ locs.length →
      headLoop origin ttl u (redirectScript locs tail) = .ttlExpired := by
  intro locs
  induction locs with
  | nil =>
    intro ttl u tail hlen
    have : ttl = 0 := by simpa using hlen
    subst this
    rfl
  | cons l ls ih =>
    intro ttl u tail hlen
    cases ttl with
    | zero => rfl
    | succ k =>
      rw [show redirectScript (l :: ls) tail =
        HeadResp.redirect3xx (some l) :: redirectScript ls tail from rfl]
      rw [headLoop]
      exact ih k (resolveRef l u) tail (by simpa using hlen)

/-- C8, amended: the header probe requires a Location header on a redirect
status (failing with the missing-Location error otherwise), resolves each
Location — absolute or relative — against the current address, and follows
up to 6 redirect hops (at most 7 requests); a chain of 7 or more redirects
fails with the TTL-expired (redirect-loop) error, and a chain of at most 6
is followed to its terminal response. -/
theorem c8_redirect_budget (origin : Url) (locs : List Loc) (tail rest : List HeadResp) :
    (locs.length ≤ 6 →
      httpHeadHeaderRun origin (redirectScript locs (.terminal :: rest)) =
        .ok (locs.foldl (fun v l => resolveRef l v) origin)
          (decide (origin ≠ locs.foldl (fun v l => resolveRef l v) origin))) ∧
    (7 ≤ locs.length →
      httpHeadHeaderRun origin (redirectScript locs tail) = .ttlExpired) ∧
    (locs.length ≤ 6 →
      httpHeadHeaderRun origin (redirectScript locs (.redirect3xx none :: rest)) =
        .noLocation) := by
  refine ⟨?_, ?_, ?_⟩
  · intro hlen
    rw [httpHeadHeaderRun, headLoop_redirects origin locs 7 origin _ (by omega)]
    obtain ⟨m, hm⟩ : ∃ m, 7 - locs.length = m + 1 := ⟨6 - locs.length, by omega⟩
    rw [hm, headLoop]
  · intro hlen
    exact headLoop_expired origin locs 7 origin tail (by omega)
  · intro hlen
    rw [httpHeadHeaderRun, headLoop_redirects origin locs 7 origin _ (by omega)]
    obtain ⟨m, hm⟩ : ∃ m, 7 - locs.length = m + 1 := ⟨6 - locs.length, by omega⟩
    rw [hm, headLoop]

/-- Witness for C8: the repository's own redirect test shape — one 302
whose relative Location `/final` resolves against the current address and
is followed to the terminal response — and a 7-redirect chain that is
rejected. -/
theorem c8_redirect_budget_witness :
    httpHeadHeaderRun ⟨false, "127.0.0.1", "/redirect"⟩
      (redirectScript [.pathAbs "/final"] [.terminal]) =
      .ok ⟨false, "127.0.0.1", "/final"⟩ true ∧
    httpHeadHeaderRun ⟨false, "h", "/0"⟩
      (redirectScript ((List.range 7).map (fun i => .pathAbs (toString i))) [.terminal]) =
      .ttlExpired :=
  ⟨((c8_redirect_budget ⟨false, "127.0.0.1", "/redirect"⟩ [.pathAbs "/final"]
      [] []).1 (by decide)).trans (by decide),
   (c8_redirect_budget ⟨false, "h", "/0"⟩
      ((List.range 7).map (fun i => .pathAbs (toString i))) [.terminal] []).2.1 (by decide)⟩

/-- Counterexample for C8 as stated: a chain of exactly 7 redirects ending
in a terminal response is within the claimed 7-hop budget, yet the probe
rejects it with the TTL-expired error instead of following it to the
terminal response (the source follows at most 6 hops in 7 requests). -/
theorem c8_redirect_budget_cex :
    httpHeadHeaderRun ⟨false, "h", "/start"⟩
      (redirectScript
        [.pathAbs "/1", .pathAbs "/2", .pathAbs "/3", .pathAbs "/4",
         .pathAbs "/5", .pathAbs "/6", .pathAbs "/7"] [.terminal]) = .ttlExpired ∧
    httpHeadHeaderRun ⟨false, "h", "/start"⟩
      (redirectScript
        [.pathAbs "/1", .pathAbs "/2", .pathAbs "/3", .pathAbs "/4",
         .pathAbs "/5", .pathAbs "/6"] [.terminal]) =
      .ok ⟨false, "h", "/6"⟩ true := by
  constructor
  · decide
  · decide

theorem find?_append_of_none {α : Type} (p : α → Bool) (l2 : List α) :
    ∀ l1 : List α, l1.find? p = none → (l1 ++ l2).find? p = l2.find? p := by
  intro l1
  induction l1 with
  | nil => intro _; simp
  | cons a l ih =>
    intro h
    have hpa : p a = false := by
      cases hpa : p a
      · rfl
      · rw [List.find?_cons_of_pos _ hpa] at h
        exact Option.noConfusion h
    rw [List.find?_cons_of_neg _ (by simp [hpa])] at h
    rw [List.cons_append, List.find?_cons_of_neg _ (by simp [hpa])]
    exact ih h

theorem find?_append_of_some {α : Type} (p : α → Bool) (l2 : List α) (x : α) :
    ∀ l1 : List α, l1.find? p = some x → (l1 ++ l2).find? p = some x := by
  intro l1
  induction l1 with
  | nil => intro h; exact Option.noConfusion h
  | cons a l ih =>
    intro h
    cases hpa : p a
    · rw [List.find?_cons_of_neg _ (by simp [hpa])] at h
      rw [List.cons_append, List.find?_cons_of_neg _ (by simp [hpa])]
      exact ih h
    · rw [List.find?_cons_of_pos _ hpa] at h
      rw [List.cons_append, List.find?_cons_of_pos _ hpa]
      exact h

theorem find?_range_shift :
    ∀ (P c k : Nat), k < P →
      ((List.range P).map (fun j => (j + c, j + c))).find? (fun e => e.1 == k + c) =
        some (k + c, k + c) := by
  intro P
  induction P with
  | zero => intro c k hk; exact absurd hk (by omega)
  | succ P ih =>
    intro c k hk
    rw [List.range_succ_eq_map, List.map_cons]
    cases k with
    | zero =>
      rw [List.find?_cons_of_pos _ (by simp)]
    | succ k =>
      rw [List.find?_cons_of_neg _ (by simp)]
      rw [List.map_map]
      have hcomp : ((fun j => (j + c, j + c)) ∘ Nat.succ) =
          (fun j => (j + (c + 1), j + (c + 1))) := by
        funext j
        simp only [Function.comp]
        have : j + 1 + c = j + (c + 1) := by omega
        rw [Nat.succ_eq_add_one, this]
      rw [hcomp]
      have harg : k + 1 + c = k + (c + 1) := by omega
      rw [harg]
      exact ih (c + 1) k (by omega)

theorem fillFrom_lru (cap : Nat) :
    ∀ (n k m : Nat) (es : List (Nat × Nat)),
      (∀ q ∈ es, q.1 < k) → es.length + n ≤ cap →
      fillFrom lruGet cap k n ⟨es, m⟩ =
        ((List.range n).map (fun j => m + j),
         ⟨es ++ (List.range n).map (fun j => (k + j, m + j)), m + n⟩) := by
  intro n
  induction n with
  | zero =>
    intro k m es _ _
    simp [fillFrom]
  | succ n ih =>
    intro k m es hlt hlen
    have hfind : es.find? (fun e => e.1 == k) = none := by
      rw [List.find?_eq_none]
      intro x hx
      simp only [beq_iff_eq]
      exact Nat.ne_of_lt (hlt x hx)
    have hnoev : ¬ (cap < (es ++ [(k, m)]).length) := by
      rw [List.length_append]
      simp only [List.length_singleton]
      omega
    have hget : lruGet cap ⟨es, m⟩ k = (m, ⟨es ++ [(k, m)], m + 1⟩) := by
      rw [lruGet, poolLookup]
      simp only [hfind, Option.map_none']
      rw [poolInsertFresh, poolEvict, if_neg hnoev]
    rw [fillFrom, hget]
    dsimp only
    rw [ih (k + 1) (m + 1) (es ++ [(k, m)]) ?hlt1 ?hlen1]
    case hlt1 =>
      intro q hq
      rcases List.mem_append.mp hq with hq | hq
      · exact Nat.lt_succ_of_lt (hlt q hq)
      · have : q = (k, m) := by simpa using hq
        subst this
        exact Nat.lt_succ_self k
    case hlen1 =>
      rw [List.length_append]
      simp only [List.length_singleton]
      omega
    have hfun1 : ((fun j => m + j) ∘ Nat.succ) = (fun j => m + 1 + j) := by
      funext j
      simp only [Function.comp]
      omega
    have hfun2 : ((fun j => (k + j, m + j)) ∘ Nat.succ) =
        (fun j => (k + 1 + j, m + 1 + j)) := by
      funext j
      simp only [Function.comp, Prod.mk.injEq]
      omega
    simp only [Prod.mk.injEq, PoolSt.mk.injEq]
    refine ⟨?_, ?_, by omega⟩
    · rw [List.range_succ_eq_map, List.map_cons, List.map_map, hfun1]
      simp
    · rw [List.range_succ_eq_map, List.map_cons, List.map_map, hfun2,
        List.append_assoc, List.singleton_append]
      simp

/-- C2, amended: for a pool at capacity `N = P + 2` filled with the
distinct addresses `0..N-1` (handles `0..N-1` created in order), a lookup
hit on address 0 returns the original handle but refreshes its position
(LRU-on-access); inserting one further distinct address then evicts
address 1 — the least-recently-used entry — not address 0: afterwards
address 1 is unreachable (a later get creates a fresh handle) while
address 0, addresses `2..N-1` and the new address all stay reachable. -/
theorem c2_pool_lru_refresh (P newKey : Nat) (ids : List Nat) (p0 p1 p2 : PoolSt)
    (h0 hN : Nat)
    (hnew : P + 2 ≤ newKey)
    (hfill : fillFrom lruGet (P + 2) 0 (P + 2) ⟨[], 0⟩ = (ids, p0))
    (hhit : lruGet (P + 2) p0 0 = (h0, p1))
    (hins : lruGet (P + 2) p1 newKey = (hN, p2)) :
    h0 = 0 ∧ ids.get? 0 = some 0 ∧
    poolLookup p1 1 = some 1 ∧
    poolLookup p2 1 = none ∧
    (lruGet (P + 2) p2 1).1 = P + 3 ∧
    poolLookup p2 0 = some 0 ∧
    (∀ j, 2 ≤ j → j < P + 2 → poolLookup p2 j = some j) ∧
    hN = P + 2 ∧ poolLookup p2 newKey = some (P + 2) := by
  have hcomp1 : ((fun j => ((0 + j : Nat), (0 + j : Nat))) ∘ Nat.succ) =
      (fun j : Nat => (j + 1, j + 1)) := by
    funext j
    simp [Function.comp]
  have hcomp2 : ((fun j : Nat => ((j + 1 : Nat), (j + 1 : Nat))) ∘ Nat.succ) =
      (fun j : Nat => (j + 2, j + 2)) := by
    funext j
    rfl
  have hfill2 := fillFrom_lru (P + 2) (P + 2) 0 0 []
    (by intro q hq; simp at hq) (by simp)
  rw [hfill] at hfill2
  injection hfill2 with hids hp0
  have hEnt0 : p0.entries =
      (0, 0) :: (List.range (P + 1)).map (fun j => (j + 1, j + 1)) := by
    rw [hp0]
    dsimp only
    rw [List.nil_append, List.range_succ_eq_map (P + 1), List.map_cons, List.map_map, hcomp1]
  have hnext0 : p0.nextId = P + 2 := by
    rw [hp0]
    simp
  have hlookhit : poolLookup p0 0 = some 0 := by
    rw [poolLookup, hEnt0, List.find?_cons_of_pos _ (by simp)]
    rfl
  have hfiltered :
      ((0, 0) :: (List.range (P + 1)).map (fun j => (j + 1, j + 1))).filter
        (fun e => !(e.1 == (0 : Nat))) =
      (List.range (P + 1)).map (fun j => (j + 1, j + 1)) := by
    rw [List.filter_cons]
    simp only [beq_self_eq_true, Bool.not_true, Bool.false_eq_true, if_false]
    exact List.filter_eq_self.mpr (by
      intro x hx
      obtain ⟨j, _, rfl⟩ := List.mem_map.mp hx
      simp)
  have hhit2 : lruGet (P + 2) p0 0 =
      (0, ⟨(List.range (P + 1)).map (fun j => (j + 1, j + 1)) ++ [(0, 0)], P + 2⟩) := by
    rw [lruGet, hlookhit]
    dsimp only
    rw [hEnt0, hnext0, hfiltered]
  rw [hhit2] at hhit
  injection hhit with hh0 hp1
  subst hh0
  subst hp1
  have hfindL1 : ((List.range (P + 1)).map (fun j => (j + 1, j + 1))).find?
      (fun e => e.1 == newKey) = none := by
    rw [List.find?_eq_none]
    intro x hx
    obtain ⟨j, hj, rfl⟩ := List.mem_map.mp hx
    have hjlt := List.mem_range.mp hj
    simp only [beq_iff_eq]
    omega
  have hlookmiss : poolLookup
      ⟨(List.range (P + 1)).map (fun j => (j + 1, j + 1)) ++ [(0, 0)], P + 2⟩ newKey = none := by
    rw [poolLookup]
    dsimp only
    rw [find?_append_of_none _ _ _ hfindL1]
    rw [List.find?_cons_of_neg _ (by simp only [beq_iff_eq]; omega)]
    rfl
  have hL1 : (List.range (P + 1)).map (fun j => ((j + 1 : Nat), (j + 1 : Nat))) =
      (1, 1) :: (List.range P).map (fun j => (j + 2, j + 2)) := by
    rw [List.range_succ_eq_map P, List.map_cons, List.map_map, hcomp2]
  have hins2 : lruGet (P + 2)
      ⟨(List.range (P + 1)).map (fun j => (j + 1, j + 1)) ++ [(0, 0)], P + 2⟩ newKey =
      (P + 2, ⟨(List.range P).map (fun j => (j + 2, j + 2)) ++ [(0, 0), (newKey, P + 2)],
        P + 3⟩) := by
    rw [lruGet, hlookmiss]
    dsimp only
    rw [poolInsertFresh, poolEvict]
    rw [if_pos (by simp [List.length_append])]
    rw [hL1]
    simp [List.append_assoc]
  rw [hins2] at hins
  injection hins with hhN hp2
  subst hhN
  subst hp2
  have hfindM1 : ∀ key : Nat, key < 2 →
      ((List.range P).map (fun j => ((j + 2 : Nat), (j + 2 : Nat)))).find?
        (fun e => e.1 == key) = none := by
    intro key hkey
    rw [List.find?_eq_none]
    intro x hx
    obtain ⟨j, _, rfl⟩ := List.mem_map.mp hx
    simp only [beq_iff_eq]
    omega
  have hfindMnew : ((List.range P).map (fun j => ((j + 2 : Nat), (j + 2 : Nat)))).find?
      (fun e => e.1 == newKey) = none := by
    rw [List.find?_eq_none]
    intro x hx
    obtain ⟨j, hj, rfl⟩ := List.mem_map.mp hx
    have hjlt := List.mem_range.mp hj
    simp only [beq_iff_eq]
    omega
  have hlook1 : poolLookup
      ⟨(List.range P).map (fun j => (j + 2, j + 2)) ++ [(0, 0), (newKey, P + 2)], P + 3⟩ 1 =
      none := by
    rw [poolLookup]
    dsimp only
    rw [find?_append_of_none _ _ _ (hfindM1 1 (by omega))]
    rw [List.find?_cons_of_neg _ (by simp only [beq_iff_eq]; omega)]
    rw [List.find?_cons_of_neg _ (by simp only [beq_iff_eq]; omega)]
    rfl
  refine ⟨rfl, ?_, ?_, hlook1, ?_, ?_, ?_, rfl, ?_⟩
  · rw [hids, List.get?_map, List.get?_range (by omega)]
    rfl
  · rw [poolLookup]
    dsimp only
    rw [find?_append_of_some _ _ _ _
      (by rw [hL1]; exact List.find?_cons_of_pos _ (by simp))]
    rfl
  · rw [lruGet, hlook1]
    rfl
  · rw [poolLookup]
    dsimp only
    rw [find?_append_of_none _ _ _ (hfindM1 0 (by omega))]
    rw [List.find?_cons_of_pos _ (by simp)]
    rfl
  · intro j h2 hjlt
    have hj2 : j - 2 + 2 = j := by omega
    have hshift := find?_range_shift P 2 (j - 2) (by omega)
    rw [hj2] at hshift
    rw [poolLookup]
    dsimp only
    rw [find?_append_of_some _ _ _ _ hshift]
    rfl
  · rw [poolLookup]
    dsimp only
    rw [find?_append_of_none _ _ _ hfindMnew]
    rw [List.find?_cons_of_neg _ (by simp only [beq_iff_eq]; omega)]
    rw [List.find?_cons_of_pos _ (by simp)]
    rfl

/-- Witness for C2 at capacity 3 (P = 1) with new address 100: after
filling 0,1,2, hitting 0 and inserting 100, address 1 is gone while 0 and
100 resolve to their handles. -/
theorem c2_pool_lru_refresh_witness :
    poolLookup ⟨[(2, 2), (0, 0), (100, 3)], 4⟩ 1 = none ∧
    poolLookup ⟨[(2, 2), (0, 0), (100, 3)], 4⟩ 0 = some 0 ∧
    poolLookup ⟨[(2, 2), (0, 0), (100, 3)], 4⟩ 100 = some 3 :=
  have h := c2_pool_lru_refresh 1 100 [0, 1, 2] ⟨[(0, 0), (1, 1), (2, 2)], 3⟩
    ⟨[(1, 1), (2, 2), (0, 0)], 3⟩ ⟨[(2, 2), (0, 0), (100, 3)], 4⟩ 0 3
    (by decide) (by decide) (by decide) (by decide)
  ⟨h.2.2.2.1, h.2.2.2.2.2.1, h.2.2.2.2.2.2.2.2⟩

/-- Counterexample for C2 as stated: a pure-FIFO pool (the spec's claimed
behavior: a hit does not reorder, the oldest-inserted entry is evicted)
fails the repository's own test scenario "pool should remove old filebox
instance" — under FIFO the final lookup of address 1 still hits the
original handle, so the test's second assertion is false — while the
LRU-on-access pool passes both assertions. -/
theorem c2_pool_fifo_cex :
    poolTestScenario fifoGet 3 100 = (true, false) ∧
    poolTestScenario lruGet 3 100 = (true, true) := by
  decide

end FileBox
